import Mathlib

/-!
Shallow embedding of the core of `src/copilot_session_restorer.py`
(needle building, hash discovery/ranking, session inventory, reconciliation).

Modelling conventions:
* Python `datetime` values are modelled as integers (an abstract, totally
  ordered clock measured in milliseconds); `datetime.min` — used only as the
  bottom element of the sort key `(x.state_db_mtime or datetime.min)` — is
  modelled by `Option.none`, which the key comparison treats as strictly
  below every present timestamp.
* Parsed JSON documents are modelled by the inductive `Json`; a failed
  read-and-parse (`json.loads(...read_text...)` raising) is `Option.none`.
  JSON numbers are modelled as integers (the claims under study only
  exercise integral values, for which Python's `int(cd)` is the identity).
* Filesystem state is passed explicitly: a directory listing becomes a
  `List` of entry records carrying exactly the attributes the source reads
  (`is_dir`, presence/content of `workspace.json`, `state.vscdb` mtime, ...).
* Python's `list.sort(key=k, reverse=True)` — a stable descending sort —
  is modelled by `List.insertionSort` with the reflexive-total relation
  "key not strictly below", which is the canonical stable descending sort.
* String lowering/stripping model the ASCII behaviour of `str.lower` /
  `str.strip`; all strings occurring in the claims are ASCII.
-/

/-- JSON values as produced by `json.loads`; object keys are assumed
distinct (as in every document the tool reads). -/
inductive Json where
  | null : Json
  | bool : Bool → Json
  | num : Int → Json
  | str : String → Json
  | arr : List Json → Json
  | obj : List (String × Json) → Json

/-- Lookup in a parsed JSON object / Python dict (first binding wins;
keys are assumed distinct). -/
def assocGet {β : Type} : List (String × β) → String → Option β
  | [], _ => none
  | (k, v) :: rest, key => if k = key then some v else assocGet rest key

/-- Lower-case one ASCII character (`str.lower` acts per character). -/
def lowerChar (c : Char) : Char :=
  if 'A' ≤ c ∧ c ≤ 'Z' then Char.ofNat (c.toNat + 32) else c

/-- Model of ASCII `str.lower`. -/
def strLower (s : String) : String := String.mk (s.data.map lowerChar)

/-- The whitespace characters stripped by Python's `str.strip()`. -/
def isPySpace (c : Char) : Bool :=
  c = ' ' || c = '\t' || c = '\n' || c = '\r' || c = '\x0b' || c = '\x0c'

/-- Model of `str.strip()`: drop leading and trailing whitespace. -/
def pyStrip (s : String) : String :=
  String.mk (((s.data.dropWhile isPySpace).reverse.dropWhile isPySpace).reverse)

/-- Model of the single-character `str.replace("\\", "/")`. -/
def strReplaceBackslash (s : String) : String :=
  String.mk (s.data.map fun c => if c = '\\' then '/' else c)

/-- Helper: `needle` is an initial segment of `hay`. -/
def listBeginsWith : List Char → List Char → Bool
  | [], _ => true
  | _ :: _, [] => false
  | c :: cs, h :: hs => c = h && listBeginsWith cs hs

/-- Helper: `needle` occurs contiguously inside `hay`. -/
def listContainsSub (nd : List Char) : List Char → Bool
  | [] => listBeginsWith nd []
  | h :: hs => listBeginsWith nd (h :: hs) || listContainsSub nd hs

/-- Model of Python's substring test `nd in hay`. -/
def containsSub (nd hay : String) : Bool := listContainsSub nd.toList hay.toList

/-! ## Timestamps and the reconciliation decision (`status_for`) -/

/-- Embedding of the dataclass `SessionItem` (timestamps as model integers,
`path` kept as the file name). -/
structure SessionItem where
  hash : String
  session_id : String
  title : String
  created : Int
  updated : Int
  ext : String
  path : String
deriving DecidableEq

/-- Embedding of `status_for` (lines 389-392): classify a source item
against the destination map `session identifier → updated time`. -/
def statusFor (item : SessionItem) (target_map : List (String × Int)) : String :=
  match assocGet target_map item.session_id with
  | none => "MissingInTarget"
  | some t => if item.updated > t then "NewerInSource" else "AlreadyInTarget"

/-! ## Hash discovery and ranking (`find_hashes_by_needles`) -/

/-- One entry of the `workspace_storage` directory listing, carrying the
attributes `find_hashes_by_needles` inspects: whether the entry is a
directory, the content of `workspace.json` when that file exists (together
with its own mtime, which the function never reads), the mtime of
`state.vscdb` when it exists, and the `chatSessions` listing (each element
recording a child's `is_file` bit) when that directory exists. -/
structure DirEntry where
  name : String
  isDir : Bool
  workspaceJson : Option String
  wsJsonMtime : Int
  stateDbMtime : Option Int
  chatDir : Option (List Bool)
deriving DecidableEq

/-- Embedding of the dataclass `HashInfo` (path fields, derivable from the
entry name, are omitted). -/
structure HashInfo where
  hash : String
  state_db_mtime : Option Int
  chat_files : Nat
deriving DecidableEq

/-- The `HashInfo` built for a matched directory entry (lines 222-242):
`state.vscdb` mtime if present, and the count of files directly under
`chatSessions` (zero when that directory is absent). -/
def mkHashInfo (d : DirEntry) : HashInfo :=
  { hash := d.name
    state_db_mtime := d.stateDbMtime
    chat_files := match d.chatDir with
      | none => 0
      | some files => (files.filter id).length }

/-- The needle filter `[n for n in needles if n and n.strip()]` (line 201):
keep needles that are non-empty and not blank. -/
def nonBlankNeedles (needles : List String) : List String :=
  needles.filter fun n => !(n == "") && !(pyStrip n == "")

/-- The scan loop of `find_hashes_by_needles` (lines 205-242): keep the
directory entries owning a `workspace.json` whose lower-cased content
contains some lower-cased needle, in directory-iteration order. -/
def matchedHits (entries : List DirEntry) (needles2 : List String) : List HashInfo :=
  entries.filterMap fun d =>
    if !d.isDir then none
    else match d.workspaceJson with
      | none => none
      | some content =>
        if needles2.any (fun n => containsSub (strLower n) (strLower content)) then
          some (mkHashInfo d)
        else none

/-- Sort key comparison for line 244: `(x.state_db_mtime or datetime.min)`,
with `none` (absent database) strictly below every present mtime. -/
def optIntLt : Option Int → Option Int → Bool
  | none, none => false
  | none, some _ => true
  | some _, none => false
  | some a, some b => decide (a < b)

/-- The relation along which line 244 sorts: `a` may precede `b` iff `a`'s
key is not strictly below `b`'s (descending, stable). -/
def hashGe (a b : HashInfo) : Prop := optIntLt a.state_db_mtime b.state_db_mtime = false

instance : DecidableRel hashGe := fun a b =>
  Bool.decEq (optIntLt a.state_db_mtime b.state_db_mtime) false

instance : IsTotal HashInfo hashGe := by
  constructor
  intro a b
  unfold hashGe optIntLt
  rcases a.state_db_mtime with _ | x <;> rcases b.state_db_mtime with _ | y <;>
    (simp; try omega)

instance : IsTrans HashInfo hashGe := by
  constructor
  intro a b c
  unfold hashGe optIntLt
  rcases a.state_db_mtime with _ | x <;> rcases b.state_db_mtime with _ | y <;>
    rcases c.state_db_mtime with _ | z <;> (simp; try omega)

/-- Embedding of `find_hashes_by_needles` (lines 200-245). The
`raise ValueError("No needles")` becomes `Except.error`; the final
`hits.sort(key=lambda x: (x.state_db_mtime or datetime.min), reverse=True)`
(a stable descending sort) becomes `List.insertionSort hashGe`. -/
def findHashesByNeedles (entries : List DirEntry) (needles : List String) :
    Except String (List HashInfo) :=
  let needles2 := nonBlankNeedles needles
  if needles2.isEmpty then Except.error "No needles"
  else Except.ok (List.insertionSort hashGe (matchedHits entries needles2))

/-- C1: for every source `SessionItem` and destination map, `status_for`
assigns exactly one of the three decisions, with `MissingInTarget` iff the
identifier is absent, `NewerInSource` iff present with strictly greater
source updated time, and `AlreadyInTarget` iff present and not greater. -/
theorem statusFor_trichotomy (item : SessionItem) (m : List (String × Int)) :
    (statusFor item m = "MissingInTarget" ∨ statusFor item m = "NewerInSource" ∨
      statusFor item m = "AlreadyInTarget")
    ∧ (statusFor item m = "MissingInTarget" ↔ assocGet m item.session_id = none)
    ∧ (statusFor item m = "NewerInSource" ↔
        ∃ t, assocGet m item.session_id = some t ∧ item.updated > t)
    ∧ (statusFor item m = "AlreadyInTarget" ↔
        ∃ t, assocGet m item.session_id = some t ∧ ¬ item.updated > t) := by
  unfold statusFor
  rcases h : assocGet m item.session_id with _ | t
  · refine ⟨Or.inl rfl, by simp, ?_, ?_⟩ <;> simp
  · dsimp only
    by_cases hgt : item.updated > t
    · rw [if_pos hgt]
      refine ⟨Or.inr (Or.inl rfl), iff_of_false (by decide) (by simp), ?_, ?_⟩
      · exact iff_of_true rfl ⟨t, rfl, hgt⟩
      · refine iff_of_false (by decide) ?_
        rintro ⟨t', ht', hnot⟩
        cases Option.some.inj ht'
        exact hnot hgt
    · rw [if_neg hgt]
      refine ⟨Or.inr (Or.inr rfl), iff_of_false (by decide) (by simp), ?_, ?_⟩
      · refine iff_of_false (by decide) ?_
        rintro ⟨t', ht', hgt'⟩
        cases Option.some.inj ht'
        exact hgt hgt'
      · exact iff_of_true rfl ⟨t, rfl, hgt⟩

/-- The key `(x.state_db_mtime or datetime.min)` never compares strictly
below itself. -/
theorem optIntLt_irrefl (k : Option Int) : optIntLt k k = false := by
  rcases k with _ | x <;> simp [optIntLt]

/-- Unfolding a successful `find_hashes_by_needles` call: the result is the
stable descending sort of the scan hits. -/
theorem findHashes_ok_elim {entries : List DirEntry} {needles : List String}
    {hits : List HashInfo}
    (hok : findHashesByNeedles entries needles = Except.ok hits) :
    hits = List.insertionSort hashGe (matchedHits entries (nonBlankNeedles needles)) := by
  simp only [findHashesByNeedles] at hok
  by_cases hne : (nonBlankNeedles needles).isEmpty
  · rw [if_pos hne] at hok
    exact absurd hok (by simp)
  · rw [if_neg hne] at hok
    injection hok with h
    exact h.symm

/-- The hit list of a successful call is pairwise ordered by the sort
relation. -/
theorem findHashes_pairwise {entries : List DirEntry} {needles : List String}
    {hits : List HashInfo}
    (hok : findHashesByNeedles entries needles = Except.ok hits) :
    List.Pairwise hashGe hits := by
  rw [findHashes_ok_elim hok]
  exact List.sorted_insertionSort hashGe _

/-- Stability of the ranking: restricted to any fixed sort key, the sorted
hit list coincides with the scan-order hit list. -/
theorem findHashes_stable {entries : List DirEntry} {needles : List String}
    {hits : List HashInfo}
    (hok : findHashesByNeedles entries needles = Except.ok hits) (k : Option Int) :
    hits.filter (fun x => decide (x.state_db_mtime = k)) =
      (matchedHits entries (nonBlankNeedles needles)).filter
        (fun x => decide (x.state_db_mtime = k)) := by
  rw [findHashes_ok_elim hok]
  set p : HashInfo → Bool := fun x => decide (x.state_db_mtime = k) with hp
  set l := matchedHits entries (nonBlankNeedles needles) with hl
  have hcpw : (l.filter p).Pairwise hashGe := by
    apply List.pairwise_of_forall_mem_list
    intro a ha b hb
    have hak : a.state_db_mtime = k := by
      simpa [hp] using (List.mem_filter.mp ha).2
    have hbk : b.state_db_mtime = k := by
      simpa [hp] using (List.mem_filter.mp hb).2
    unfold hashGe
    rw [hak, hbk]
    exact optIntLt_irrefl k
  have hsub : List.Sublist (l.filter p) (List.insertionSort hashGe l) :=
    List.sublist_insertionSort hcpw (List.filter_sublist l)
  have hfself : (l.filter p).filter p = l.filter p :=
    List.filter_eq_self.mpr fun a ha => (List.mem_filter.mp ha).2
  have hsub2 : List.Sublist (l.filter p) ((List.insertionSort hashGe l).filter p) := by
    have hstep := List.Sublist.filter p hsub
    rwa [hfself] at hstep
  have hperm : ((List.insertionSort hashGe l).filter p).Perm (l.filter p) :=
    (List.perm_insertionSort hashGe l).filter p
  exact (hsub2.eq_of_length hperm.length_eq.symm).symm

/-- C2: a successful `find_hashes_by_needles` call returns hits
stable-sorted by `state.vscdb` modification time, descending: pairwise the
earlier hit's key is not strictly below the later one's, ties (equal keys)
keep original scan order, and a hit without a database mtime is followed
only by hits without one. -/
theorem findHashes_sorted_stable (entries : List DirEntry) (needles : List String)
    (hits : List HashInfo)
    (hok : findHashesByNeedles entries needles = Except.ok hits) :
    List.Pairwise hashGe hits
    ∧ (∀ k : Option Int, hits.filter (fun x => decide (x.state_db_mtime = k)) =
        (matchedHits entries (nonBlankNeedles needles)).filter
          (fun x => decide (x.state_db_mtime = k)))
    ∧ (∀ i j, ∀ (hi : i < hits.length) (hj : j < hits.length), i < j →
        optIntLt hits[i].state_db_mtime hits[j].state_db_mtime = false)
    ∧ (∀ i j, ∀ (hi : i < hits.length) (hj : j < hits.length), i < j →
        hits[i].state_db_mtime = none → hits[j].state_db_mtime = none) := by
  have hpw := findHashes_pairwise hok
  have hidx := List.pairwise_iff_getElem.mp hpw
  refine ⟨hpw, findHashes_stable hok, fun i j hi hj hij => hidx i j hi hj hij, ?_⟩
  intro i j hi hj hij hnone
  have h := hidx i j hi hj hij
  unfold hashGe at h
  rcases hmt : hits[j].state_db_mtime with _ | t
  · rfl
  · rw [hnone, hmt] at h
    simp [optIntLt] at h

/-- Witness for C2 at a concrete storage listing: three matching hash
directories with database mtimes 5, 9 and absent rank as 9, 5, absent. -/
theorem findHashes_sorted_stable_witness :
    List.Pairwise hashGe
      [⟨"B", some 9, 0⟩, ⟨"A", some 5, 0⟩, ⟨"C", none, 1⟩] :=
  (findHashes_sorted_stable
      [⟨"A", true, some "xa", 3, some 5, none⟩, ⟨"B", true, some "xa", 4, some 9, none⟩,
        ⟨"C", true, some "xa", 7, none, some [true, false]⟩]
      ["a"] _ rfl).1

/-- Membership in the scan-hit list: exactly the directory entries owning
a matching `workspace.json`. -/
theorem mem_matchedHits {entries : List DirEntry} {ns : List String} {x : HashInfo} :
    x ∈ matchedHits entries ns ↔
      ∃ e ∈ entries, e.isDir = true ∧ ∃ c, e.workspaceJson = some c ∧
        ns.any (fun n => containsSub (strLower n) (strLower c)) = true ∧
        x = mkHashInfo e := by
  unfold matchedHits
  rw [List.mem_filterMap]
  constructor
  · rintro ⟨e, he, hx⟩
    by_cases hd : e.isDir
    · rw [hd] at hx
      simp only [Bool.not_true, Bool.false_eq_true, if_false] at hx
      rcases hc : e.workspaceJson with _ | c
      · rw [hc] at hx
        exact absurd hx (by simp)
      · rw [hc] at hx
        dsimp only at hx
        by_cases hany : ns.any (fun n => containsSub (strLower n) (strLower c)) = true
        · rw [if_pos hany] at hx
          exact ⟨e, he, hd, c, hc, hany, (Option.some.inj hx).symm⟩
        · rw [if_neg hany] at hx
          exact absurd hx (by simp)
    · rw [Bool.not_eq_true] at hd
      rw [hd] at hx
      exact absurd hx (by simp)
  · rintro ⟨e, he, hd, c, hc, hany, rfl⟩
    refine ⟨e, he, ?_⟩
    rw [hd, hc]
    simp only [Bool.not_true, Bool.false_eq_true, if_false, if_pos hany]

/-- C3 as stated is false: matching considers only the non-blank needles,
so a blank needle (here a single space, which does occur as a substring of
the descriptor text "a b") never causes a match. The code returns no hit,
although the claim's criterion — some needle of the given list occurs in
the descriptor — is satisfied. -/
theorem findHashes_blank_needle_cex :
    containsSub (strLower " ") (strLower "a b") = true
    ∧ findHashesByNeedles [⟨"h1", true, some "a b", 0, none, none⟩] ["zzz", " "]
        = Except.ok [] := by
  exact ⟨by decide, rfl⟩

/-- C3 (amended): given at least one non-blank needle, the call succeeds
and returns exactly the hash subdirectories owning a `workspace.json`
whose text contains one of the NON-BLANK needles case-insensitively;
directories without a descriptor never appear. -/
theorem findHashes_match_characterization (entries : List DirEntry) (needles : List String)
    (hnb : ∃ n ∈ needles, pyStrip n ≠ "") :
    ∃ hits, findHashesByNeedles entries needles = Except.ok hits
      ∧ hits.Perm (matchedHits entries (nonBlankNeedles needles))
      ∧ (∀ x ∈ hits, ∃ e ∈ entries, e.isDir = true ∧ ∃ c, e.workspaceJson = some c ∧
          (nonBlankNeedles needles).any
            (fun n => containsSub (strLower n) (strLower c)) = true ∧
          x = mkHashInfo e)
      ∧ (∀ e ∈ entries, e.isDir = true → ∀ c, e.workspaceJson = some c →
          (nonBlankNeedles needles).any
            (fun n => containsSub (strLower n) (strLower c)) = true →
          mkHashInfo e ∈ hits) := by
  obtain ⟨n, hn, hstrip⟩ := hnb
  have hmem : n ∈ nonBlankNeedles needles := by
    apply List.mem_filter.mpr
    refine ⟨hn, ?_⟩
    have hne : n ≠ "" := by
      intro h
      exact hstrip (by rw [h]; rfl)
    simp [hne, hstrip]
  have hempty : (nonBlankNeedles needles).isEmpty = false := by
    rcases h : nonBlankNeedles needles with _ | ⟨a, l⟩
    · rw [h] at hmem
      exact absurd hmem (List.not_mem_nil n)
    · rfl
  refine ⟨List.insertionSort hashGe (matchedHits entries (nonBlankNeedles needles)), ?_, ?_, ?_, ?_⟩
  · simp only [findHashesByNeedles]
    rw [if_neg (by simp [hempty])]
  · exact List.perm_insertionSort hashGe _
  · intro x hx
    have hx2 : x ∈ matchedHits entries (nonBlankNeedles needles) :=
      ((List.perm_insertionSort hashGe _).mem_iff).mp hx
    exact mem_matchedHits.mp hx2
  · intro e he hd c hc hany
    have hx : mkHashInfo e ∈ matchedHits entries (nonBlankNeedles needles) :=
      mem_matchedHits.mpr ⟨e, he, hd, c, hc, hany, rfl⟩
    exact ((List.perm_insertionSort hashGe _).mem_iff).mpr hx

/-- Witness for C3 (amended) at a concrete input: one directory whose
descriptor text "za" contains the needle "a". -/
theorem findHashes_match_characterization_witness :
    ∃ hits, findHashesByNeedles [⟨"h1", true, some "za", 0, none, none⟩] ["a"]
        = Except.ok hits
      ∧ mkHashInfo ⟨"h1", true, some "za", 0, none, none⟩ ∈ hits := by
  obtain ⟨hits, h1, _, _, h4⟩ :=
    findHashes_match_characterization [⟨"h1", true, some "za", 0, none, none⟩] ["a"]
      ⟨"a", by simp, by decide⟩
  refine ⟨hits, h1, ?_⟩
  exact h4 _ (by simp) rfl "za" rfl (by decide)

/-- C4 as stated is false: the ranking ignores the descriptor
(`workspace.json`) modification time. Here directory `A`'s descriptor is
more recent (mtime 100 against 50), yet `B` is ranked first because its
`state.vscdb` is more recent (mtime 20 against 10). -/
theorem findHashes_descriptor_mtime_cex :
    (100 : Int) > 50
    ∧ findHashesByNeedles
        [⟨"A", true, some "x", 100, some 10, none⟩, ⟨"B", true, some "x", 50, some 20, none⟩]
        ["x"]
      = Except.ok [⟨"B", some 20, 0⟩, ⟨"A", some 10, 0⟩] := by
  exact ⟨by decide, rfl⟩

/-- C4 (amended): the ranker orders matched hash directories by
embedded-database (`state.vscdb`) modification recency — of two hits with
present database mtimes, the strictly more recent one precedes. -/
theorem findHashes_db_recency_order (entries : List DirEntry) (needles : List String)
    (hits : List HashInfo)
    (hok : findHashesByNeedles entries needles = Except.ok hits)
    (i j : Nat) (hi : i < hits.length) (hj : j < hits.length) (t1 t2 : Int)
    (hij : i ≠ j)
    (h1 : hits[i].state_db_mtime = some t1) (h2 : hits[j].state_db_mtime = some t2)
    (hgt : t1 > t2) : i < j := by
  rcases Nat.lt_trichotomy i j with h | h | h
  · exact h
  · exact absurd h hij
  · exfalso
    have hp := List.pairwise_iff_getElem.mp (findHashes_pairwise hok) j i hj hi h
    unfold hashGe at hp
    rw [h1, h2] at hp
    simp only [optIntLt, decide_eq_false_iff_not, not_lt] at hp
    omega

/-- Witness for C4 (amended): with database mtimes 20 and 10 the
20-directory lands at index 0, before the 10-directory at index 1. -/
theorem findHashes_db_recency_order_witness : (0 : Nat) < 1 :=
  findHashes_db_recency_order
    [⟨"A", true, some "x", 100, some 10, none⟩, ⟨"B", true, some "x", 50, some 20, none⟩]
    ["x"] [⟨"B", some 20, 0⟩, ⟨"A", some 10, 0⟩] rfl
    0 1 (by decide) (by decide) 20 10 (by decide) rfl rfl (by decide)

/-- C9: an empty needle list makes `find_hashes_by_needles` fail fast with
the input error `ValueError("No needles")` — no scan result is produced,
whatever the storage root contains. -/
theorem findHashes_empty_needles_error (entries : List DirEntry) :
    findHashesByNeedles entries [] = Except.error "No needles" := rfl

/-! ## Paths and URI variants (`win_uri_variants`, `load_code_workspace_folders`)

Paths are modelled POSIX-style (the style the spec's scenarios use): a
`pathlib.Path` value is an absoluteness flag plus the list of components,
where construction — as in `pathlib` — collapses duplicate separators and
drops `.` components. `Path.resolve()` is modelled for absolute inputs
(the call sites resolve relative to an already-resolved descriptor path);
symbolic links are outside the model. -/

/-- Split a character list on a separator character. -/
def splitOnChar (sep : Char) : List Char → List (List Char)
  | [] => [[]]
  | c :: cs =>
    let r := splitOnChar sep cs
    if c = sep then [] :: r
    else match r with
      | [] => [[c]]
      | h :: t => (c :: h) :: t

/-- Whether a (POSIX-style) path string is absolute. -/
def pathIsAbs (p : String) : Bool :=
  match p.data with
  | '/' :: _ => true
  | _ => false

/-- Model of a `pathlib` path value. -/
structure PyPath where
  absolute : Bool
  comps : List String
deriving DecidableEq

/-- Model of the `Path(...)` constructor: record absoluteness, collapse
duplicate separators, drop `.` components. -/
def pathMk (s : String) : PyPath :=
  ⟨pathIsAbs s,
    ((splitOnChar '/' s.data).map String.mk).filter fun c => !(c == "") && !(c == ".")⟩

/-- Model of `str(path)`. -/
def pathStr (p : PyPath) : String :=
  if p.absolute then "/" ++ String.intercalate "/" p.comps
  else if p.comps.isEmpty then "." else String.intercalate "/" p.comps

/-- Model of `path.parent`. -/
def pathParent (p : PyPath) : PyPath := ⟨p.absolute, p.comps.dropLast⟩

/-- Model of `parent / child` (`pathlib`'s `/` operator). -/
def pathJoin (a b : PyPath) : PyPath :=
  if b.absolute then b else ⟨a.absolute, a.comps ++ b.comps⟩

/-- Process `..` components the way `Path.resolve()` does. -/
def processDots (cs : List String) : List String :=
  cs.foldl (fun acc c => if c = ".." then acc.dropLast else acc ++ [c]) []

/-- Model of `Path.resolve()` for absolute inputs (no symlinks, no cwd). -/
def pathResolve (p : PyPath) : PyPath := ⟨true, processDots p.comps⟩

/-- Upper-case hexadecimal digit, as `urllib.parse.quote` emits. -/
def pctHexDigit (n : Nat) : Char :=
  if n < 10 then Char.ofNat (48 + n) else Char.ofNat (55 + n)

/-- Percent-encode one byte. -/
def pctEncodeByte (n : Nat) : List Char :=
  ['%', pctHexDigit (n / 16 % 16), pctHexDigit (n % 16)]

/-- UTF-8 bytes of a code point. -/
def utf8Bytes (n : Nat) : List Nat :=
  if n < 128 then [n]
  else if n < 2048 then [192 + n / 64, 128 + n % 64]
  else if n < 65536 then [224 + n / 4096, 128 + n / 64 % 64, 128 + n % 64]
  else [240 + n / 262144, 128 + n / 4096 % 64, 128 + n / 64 % 64, 128 + n % 64]

/-- Characters `Path.as_uri` leaves unencoded (the `quote` safe set plus
the path separator). -/
def uriSafeChar (c : Char) : Bool :=
  c.isAlphanum || c = '_' || c = '.' || c = '-' || c = '~' || c = '/'

/-- Percent-encode one character of a path. -/
def quoteChar (c : Char) : List Char :=
  if uriSafeChar c then [c] else ((utf8Bytes c.toNat).map pctEncodeByte).flatten

/-- Model of `Path.as_uri()` for absolute POSIX paths (`to_file_uri` /
line 114; the call sites only pass absolute, resolved paths — `as_uri`
raises on relative ones, and the one caller that could see that wraps the
call in `try/except`). -/
def pyAsUri (p : String) : String :=
  "file://" ++ String.mk ((p.data.map quoteChar).flatten)

/-- The de-duplication loop shared by `win_uri_variants` (lines 134-139)
and `load_code_workspace_folders` (lines 183-188): keep the first
occurrence of each non-empty string. -/
def uniqueNonEmptyGo (seen : List String) : List String → List String
  | [] => []
  | v :: vs =>
    if !(v == "") && !(seen.contains v) then v :: uniqueNonEmptyGo (v :: seen) vs
    else uniqueNonEmptyGo seen vs

/-- Keep the first occurrence of each non-empty string. -/
def uniqueNonEmpty (l : List String) : List String := uniqueNonEmptyGo [] l

/-- Embedding of `win_uri_variants` (lines 99-140), as a function of
`str(p)`: the standard URI (when formable), plus — for strings whose
second character is a drive colon — the four manual drive-letter
variants, de-duplicated. -/
def winUriVariants (p : String) : List String :=
  let std := if pathIsAbs p then [pyAsUri p] else []
  let variants :=
    match p.data with
    | c0 :: ':' :: restC =>
      let restSlash := strReplaceBackslash (String.mk restC)
      let dStr := String.mk [c0]
      let dLow := strLower dStr
      std ++
        ["file:///" ++ dStr ++ ":" ++ restSlash,
          "file:///" ++ dLow ++ ":" ++ restSlash,
          "file:///" ++ dLow ++ "%3A" ++ restSlash,
          "file:///" ++ dLow ++ "%3a" ++ restSlash]
    | _ => std
  uniqueNonEmpty variants

/-- The `"path"` arm of one folder entry of `load_code_workspace_folders`
(lines 173-180): resolve a relative path against the descriptor's own
directory and emit the absolute form, the separator-normalized form, and
the URI variants. -/
def folderPathNeedles (wsPath : String) (fkvs : List (String × Json)) : List String :=
  match assocGet fkvs "path" with
  | some (Json.str pa) =>
    if !(pyStrip pa == "") then
      let p0 := pathMk pa
      let p := if p0.absolute then p0
        else pathResolve (pathJoin (pathParent (pathMk wsPath)) p0)
      [pathStr p, strReplaceBackslash (pathStr p)] ++ winUriVariants (pathStr p)
    else []
  | _ => []

/-- The needles contributed by one entry of the `"folders"` array
(lines 166-180): a non-blank `"uri"` string is taken verbatim (stripped),
otherwise a non-blank `"path"` string is resolved; anything else
contributes nothing. -/
def folderEntryNeedles (wsPath : String) (f : Json) : List String :=
  match f with
  | Json.obj fkvs =>
    match assocGet fkvs "uri" with
    | some (Json.str u) =>
      if !(pyStrip u == "") then [pyStrip u] else folderPathNeedles wsPath fkvs
    | _ => folderPathNeedles wsPath fkvs
  | _ => []

/-- Embedding of `load_code_workspace_folders` (lines 143-189). The two
read-and-parse attempts (strict UTF-8, then lossy decode) are modelled by
their outcomes `utf8Parsed` / `lossyParsed`; `none` is a raised-and-caught
decode or JSON error. -/
def loadCodeWorkspaceFolders (wsPath : String) (utf8Parsed lossyParsed : Option Json) :
    List String :=
  match (match utf8Parsed with | some j => some j | none => lossyParsed) with
  | none => []
  | some (Json.obj kvs) =>
    match assocGet kvs "folders" with
    | some (Json.arr fs) => uniqueNonEmpty (fs.flatMap (folderEntryNeedles wsPath))
    | _ => []
  | some _ => []

/-- Everything the needle builder reads about the single input path:
the path string (already resolved by `resolve_input_path`), the
`is_file` / `is_dir` bits, and — when the descriptor file is read — the
two parse outcomes. -/
structure InputPathInfo where
  path : String
  isFile : Bool
  isDir : Bool
  utf8Parsed : Option Json
  lossyParsed : Option Json

/-- Last path component (`Path.name`). -/
def pyName (p : String) : String :=
  match (pathMk p).comps.getLast? with
  | some n => n
  | none => ""

/-- Index of the last `.` in a character list. -/
def lastDotIdxGo (i : Nat) (acc : Option Nat) : List Char → Option Nat
  | [] => acc
  | c :: cs => lastDotIdxGo (i + 1) (if c = '.' then some i else acc) cs

/-- Model of `Path.suffix`: the final extension (with dot) of the last
component, empty for hidden files and trailing dots. -/
def pathSuffix (p : String) : String :=
  let nm := pyName p
  match lastDotIdxGo 0 none nm.data with
  | some i => if 0 < i ∧ i < nm.data.length - 1 then String.mk (nm.data.drop i) else ""
  | none => ""

/-- Model of `Path.stem`: the last component without its suffix. -/
def pathStem (p : String) : String :=
  let nm := pyName p
  match lastDotIdxGo 0 none nm.data with
  | some i => if 0 < i ∧ i < nm.data.length - 1 then String.mk (nm.data.take i) else nm
  | none => nm

/-- Embedding of `is_code_workspace_file` (lines 248-249). -/
def isCodeWorkspaceFile (info : InputPathInfo) : Bool :=
  info.isFile && (strLower (pathSuffix info.path) == ".code-workspace")

/-- Embedding of `build_needles_for_workspace_input` (lines 252-282):
returns the display label and the needle list for a workspace-descriptor
file, a directory, or a non-resolving raw path. -/
def buildNeedlesForWorkspaceInput (info : InputPathInfo) : String × List String :=
  if isCodeWorkspaceFile info then
    let wsFull := info.path
    let wsUri := pyAsUri info.path
    ("WorkspaceFile: " ++ wsFull,
      [wsFull, strReplaceBackslash wsFull, wsUri, strLower wsUri]
        ++ loadCodeWorkspaceFolders info.path info.utf8Parsed info.lossyParsed)
  else if info.isDir then
    let folderFull := info.path
    let folderUri := pyAsUri info.path
    ("WorkspaceFolder: " ++ folderFull,
      [folderFull, strReplaceBackslash folderFull, folderUri, strLower folderUri]
        ++ winUriVariants info.path)
  else
    ("Path: " ++ info.path,
      [info.path, strReplaceBackslash info.path, strLower info.path])

/-- Invariant of the de-duplication loop: its output is duplicate-free and
avoids both the `seen` set and the empty string. -/
theorem uniqueNonEmptyGo_spec (l : List String) : ∀ seen : List String,
    (uniqueNonEmptyGo seen l).Nodup
    ∧ ∀ v ∈ uniqueNonEmptyGo seen l, v ∉ seen ∧ v ≠ "" := by
  induction l with
  | nil => intro seen; exact ⟨List.nodup_nil, by simp [uniqueNonEmptyGo]⟩
  | cons a as ih =>
    intro seen
    simp only [uniqueNonEmptyGo]
    by_cases h : (!(a == "") && !(seen.contains a)) = true
    · rw [if_pos h]
      obtain ⟨hnd, hmem⟩ := ih (a :: seen)
      have ha : a ≠ "" ∧ a ∉ seen := by
        simpa using h
      constructor
      · refine List.nodup_cons.mpr ⟨?_, hnd⟩
        intro hmem2
        exact (hmem a hmem2).1 (List.mem_cons_self a seen)
      · intro v hv
        rcases List.mem_cons.mp hv with rfl | hv2
        · exact ⟨ha.2, ha.1⟩
        · obtain ⟨hns, hne⟩ := hmem v hv2
          exact ⟨fun hvseen => hns (List.mem_cons_of_mem _ hvseen), hne⟩
    · rw [if_neg h]
      exact ih seen

/-- The de-duplication loop produces a duplicate-free list. -/
theorem uniqueNonEmpty_nodup (l : List String) : (uniqueNonEmpty l).Nodup :=
  (uniqueNonEmptyGo_spec l []).1

/-- Every string the de-duplication loop emits is non-empty. -/
theorem uniqueNonEmpty_ne_empty {l : List String} {v : String}
    (hv : v ∈ uniqueNonEmpty l) : v ≠ "" :=
  ((uniqueNonEmptyGo_spec l []).2 v hv).2

/-- The needle list of `load_code_workspace_folders` is either empty or the
output of the de-duplication loop. -/
theorem loadFolders_shape (wsPath : String) (u l : Option Json) :
    loadCodeWorkspaceFolders wsPath u l = [] ∨
      ∃ xs, loadCodeWorkspaceFolders wsPath u l = uniqueNonEmpty xs := by
  unfold loadCodeWorkspaceFolders
  rcases u with _ | j
  · rcases l with _ | j
    · exact Or.inl rfl
    · cases j with
      | obj kvs =>
        dsimp only
        rcases hf : assocGet kvs "folders" with _ | jf
        · exact Or.inl rfl
        · cases jf with
          | arr fs => exact Or.inr ⟨fs.flatMap (folderEntryNeedles wsPath), rfl⟩
          | null => exact Or.inl rfl
          | bool b => exact Or.inl rfl
          | num n => exact Or.inl rfl
          | str s => exact Or.inl rfl
          | obj kvs2 => exact Or.inl rfl
      | null => exact Or.inl rfl
      | bool b => exact Or.inl rfl
      | num n => exact Or.inl rfl
      | str s => exact Or.inl rfl
      | arr fs => exact Or.inl rfl
  · cases j with
    | obj kvs =>
      dsimp only
      rcases hf : assocGet kvs "folders" with _ | jf
      · exact Or.inl rfl
      · cases jf with
        | arr fs => exact Or.inr ⟨fs.flatMap (folderEntryNeedles wsPath), rfl⟩
        | null => exact Or.inl rfl
        | bool b => exact Or.inl rfl
        | num n => exact Or.inl rfl
        | str s => exact Or.inl rfl
        | obj kvs2 => exact Or.inl rfl
    | null => exact Or.inl rfl
    | bool b => exact Or.inl rfl
    | num n => exact Or.inl rfl
    | str s => exact Or.inl rfl
    | arr fs => exact Or.inl rfl

/-- C7 as stated is false: `build_needles_for_workspace_input` does not
de-duplicate its top-level needle list. For the non-resolving input path
`/x` it returns the needle `"/x"` three times (the raw string, its
separator-normalized form and its lower-cased form all coincide). -/
theorem buildNeedles_duplicate_cex :
    (buildNeedlesForWorkspaceInput ⟨"/x", false, false, none, none⟩).2 = ["/x", "/x", "/x"]
    ∧ ¬ List.Nodup (buildNeedlesForWorkspaceInput ⟨"/x", false, false, none, none⟩).2 :=
  ⟨rfl, by decide⟩

/-- C7 (amended): only the needle sublists produced by `win_uri_variants`
and by `load_code_workspace_folders` are de-duplicated (each runs a
first-occurrence filter); the full list assembled by
`build_needles_for_workspace_input` may repeat strings. -/
theorem needle_sublists_nodup (p wsPath : String) (u l : Option Json) :
    (winUriVariants p).Nodup ∧ (loadCodeWorkspaceFolders wsPath u l).Nodup := by
  constructor
  · exact uniqueNonEmpty_nodup _
  · rcases loadFolders_shape wsPath u l with h | ⟨xs, h⟩
    · rw [h]; exact List.nodup_nil
    · rw [h]; exact uniqueNonEmpty_nodup xs

/-- C5 as stated is false: for a descriptor at `/ws/proj.code-workspace`
declaring `"folders": [{"path": "app"}]`, the code resolves `app` against
the descriptor's parent directory `/ws` and emits `/ws/app` — the claimed
needle `/ws/proj/app` is not produced. -/
theorem loadFolders_relative_resolution_cex :
    loadCodeWorkspaceFolders "/ws/proj.code-workspace"
        (some (Json.obj [("folders", Json.arr [Json.obj [("path", Json.str "app")]])])) none
      = ["/ws/app", "file:///ws/app"]
    ∧ "/ws/proj/app" ∉ loadCodeWorkspaceFolders "/ws/proj.code-workspace"
        (some (Json.obj [("folders", Json.arr [Json.obj [("path", Json.str "app")]])])) none :=
  ⟨rfl, by decide⟩

/-- C5 (amended): the relative folder path `app` is resolved against the
descriptor's own directory, so the descriptor at `/ws/proj.code-workspace`
yields the absolute needle `/ws/app` together with its URI variant (the
separator-normalized form coincides with the absolute form and is
de-duplicated away). -/
theorem loadFolders_resolves_against_descriptor_dir :
    "/ws/app" ∈ loadCodeWorkspaceFolders "/ws/proj.code-workspace"
        (some (Json.obj [("folders", Json.arr [Json.obj [("path", Json.str "app")]])])) none
    ∧ loadCodeWorkspaceFolders "/ws/proj.code-workspace"
        (some (Json.obj [("folders", Json.arr [Json.obj [("path", Json.str "app")]])])) none
      = ["/ws/app", "file:///ws/app"] :=
  ⟨by decide, rfl⟩

/-- C8: `load_code_workspace_folders` is total on every read/parse outcome
and degrades gracefully — an unreadable or unparsable file, a non-object
top level, or a missing/non-array `folders` field each yield the empty
needle list, and every needle returned is a non-empty string. -/
theorem loadFolders_total_graceful (wsPath : String) (u l : Option Json) :
    ((u = none ∧ l = none) → loadCodeWorkspaceFolders wsPath u l = [])
    ∧ (∀ j, (u = some j ∨ (u = none ∧ l = some j)) → (∀ kvs, j ≠ Json.obj kvs) →
        loadCodeWorkspaceFolders wsPath u l = [])
    ∧ (∀ kvs, (u = some (Json.obj kvs) ∨ (u = none ∧ l = some (Json.obj kvs))) →
        (∀ fs, assocGet kvs "folders" ≠ some (Json.arr fs)) →
        loadCodeWorkspaceFolders wsPath u l = [])
    ∧ (∀ n ∈ loadCodeWorkspaceFolders wsPath u l, n ≠ "") := by
  refine ⟨?_, ?_, ?_, ?_⟩
  · rintro ⟨rfl, rfl⟩
    rfl
  · rintro j (rfl | ⟨rfl, rfl⟩) hno
    · cases j with
      | obj kvs => exact absurd rfl (hno kvs)
      | null => rfl
      | bool b => rfl
      | num n => rfl
      | str s => rfl
      | arr fs => rfl
    · cases j with
      | obj kvs => exact absurd rfl (hno kvs)
      | null => rfl
      | bool b => rfl
      | num n => rfl
      | str s => rfl
      | arr fs => rfl
  · rintro kvs (rfl | ⟨rfl, rfl⟩) hno
    · unfold loadCodeWorkspaceFolders
      dsimp only
      rcases hf : assocGet kvs "folders" with _ | jf
      · rfl
      · cases jf with
        | arr fs => exact absurd hf (hno fs)
        | null => rfl
        | bool b => rfl
        | num n => rfl
        | str s => rfl
        | obj kvs2 => rfl
    · unfold loadCodeWorkspaceFolders
      dsimp only
      rcases hf : assocGet kvs "folders" with _ | jf
      · rfl
      · cases jf with
        | arr fs => exact absurd hf (hno fs)
        | null => rfl
        | bool b => rfl
        | num n => rfl
        | str s => rfl
        | obj kvs2 => rfl
  · intro n hn
    rcases loadFolders_shape wsPath u l with h | ⟨xs, h⟩
    · rw [h] at hn
      exact absurd hn (List.not_mem_nil n)
    · rw [h] at hn
      exact uniqueNonEmpty_ne_empty hn

/-- Witness for C8 at three concrete degraded inputs: both parses failed;
a non-object top level; a non-array `folders` field. -/
theorem loadFolders_total_graceful_witness :
    loadCodeWorkspaceFolders "/w.code-workspace" none none = []
    ∧ loadCodeWorkspaceFolders "/w.code-workspace" (some (Json.arr [])) none = []
    ∧ loadCodeWorkspaceFolders "/w.code-workspace"
        (some (Json.obj [("folders", Json.num 3)])) none = [] := by
  refine ⟨(loadFolders_total_graceful "/w.code-workspace" none none).1 ⟨rfl, rfl⟩, ?_, ?_⟩
  · refine (loadFolders_total_graceful "/w.code-workspace" (some (Json.arr [])) none).2.1
      (Json.arr []) (Or.inl rfl) ?_
    intro kvs h
    cases h
  · refine (loadFolders_total_graceful "/w.code-workspace"
      (some (Json.obj [("folders", Json.num 3)])) none).2.2.1
      [("folders", Json.num 3)] (Or.inl rfl) ?_
    intro fs h
    simp only [assocGet, if_pos rfl] at h
    cases h

/-! ## Session metadata and inventory (`try_parse_session_meta_json`,
`session_inventory`) -/

/-- The title loop of `try_parse_session_meta_json` (lines 294-299): the
first of the given keys holding a non-blank string wins, stripped. -/
def firstTitle (kvs : List (String × Json)) : List String → String
  | [] => ""
  | k :: ks =>
    match assocGet kvs k with
    | some (Json.str v) => if !(pyStrip v == "") then pyStrip v else firstTitle kvs ks
    | _ => firstTitle kvs ks

/-- Embedding of `try_parse_session_meta_json` (lines 285-311), as a
function of the read-and-parse outcome (`none` = any raised exception,
caught at line 310). Returns `(session_id, title, creation_ms)`. The
`creationDate` arm accepts numerics — including Python booleans, which are
`int` instances (`int(True) = 1`) — and scales a value below the
ten-digit threshold `10_000_000_000` by 1000. -/
def tryParseSessionMetaJson (parsed : Option Json) :
    Option String × String × Option Int :=
  match parsed with
  | none => (none, "", none)
  | some (Json.obj kvs) =>
    let session_id := match assocGet kvs "sessionId" with
      | some (Json.str s) => if !(s == "") then some s else none
      | _ => none
    let title := firstTitle kvs ["customTitle", "title", "computedTitle"]
    let creation_ms := match assocGet kvs "creationDate" with
      | some (Json.num n) => some (if n < 10000000000 then n * 1000 else n)
      | some (Json.bool b) =>
        let cdi := if b then (1 : Int) else 0
        some (if cdi < 10000000000 then cdi * 1000 else cdi)
      | _ => none
    (session_id, title, creation_ms)
  | some _ => (none, "", none)

/-- One file of a `chatSessions` directory, carrying the attributes
`session_inventory` reads: the name, the `is_file` bit, the stat-derived
created/updated datetimes, and — for structured files — the
read-and-parse outcome. -/
structure ChatFile where
  name : String
  isFile : Bool
  fsCreated : Int
  fsUpdated : Int
  parsed : Option Json

/-- The relation along which line 363 sorts the inventory
(`key=lambda x: x.updated, reverse=True`, stable descending). -/
def itemGe (a b : SessionItem) : Prop := b.updated ≤ a.updated

instance : DecidableRel itemGe := fun a b => Int.decLe b.updated a.updated

instance : IsTotal SessionItem itemGe :=
  ⟨fun a b => Int.le_total b.updated a.updated⟩

instance : IsTrans SessionItem itemGe :=
  ⟨fun _ _ _ hab hbc => Int.le_trans hbc hab⟩

/-- The loop body of `session_inventory` (lines 328-361) for one directory
child: skip non-files and unrecognized extensions; start from the filename
stem and the stat timestamps; for the structured format, best-effort
override identifier, title and — only when the parsed creation value is
truthy (non-`None` and nonzero) — the created timestamp. The model's
`datetime.fromtimestamp(creation_ms / 1000)` is the identity on the
millisecond clock. -/
def inventoryItem (h : String) (f : ChatFile) : Option SessionItem :=
  if !f.isFile then none
  else
    let ext := String.mk ((strLower (pathSuffix f.name)).data.dropWhile (· = '.'))
    if !(ext == "json") && !(ext == "jsonl") then none
    else
      let base_id := pathStem f.name
      if ext == "json" then
        let meta := tryParseSessionMetaJson f.parsed
        let session_id := match meta.1 with
          | some s => if !(s == "") then s else base_id
          | none => base_id
        let title := if !(meta.2.1 == "") then meta.2.1 else ""
        let created := match meta.2.2 with
          | some c => if !(c == 0) then c else f.fsCreated
          | none => f.fsCreated
        some ⟨h, session_id, title, created, f.fsUpdated, ext, f.name⟩
      else
        some ⟨h, base_id, "", f.fsCreated, f.fsUpdated, ext, f.name⟩

/-- Embedding of `session_inventory` (lines 322-364): enumerate the
session files of each hash's `chatSessions` directory (`lookupDir` is the
filesystem: `none` = directory absent), then stable-sort by updated
timestamp, descending. -/
def sessionInventory (lookupDir : String → Option (List ChatFile))
    (hashes : List String) : List SessionItem :=
  let items := hashes.flatMap fun h =>
    match lookupDir h with
    | none => []
    | some files => files.filterMap (inventoryItem h)
  List.insertionSort itemGe items

/-- C6: a numeric `creationDate` below the ten-digit threshold is scaled
by 1000 to milliseconds; a value at or above it is used unscaled. -/
theorem creationDate_scaling (kvs : List (String × Json)) (n : Int)
    (h : assocGet kvs "creationDate" = some (Json.num n)) :
    (tryParseSessionMetaJson (some (Json.obj kvs))).2.2 =
      some (if n < 10000000000 then n * 1000 else n) := by
  unfold tryParseSessionMetaJson
  dsimp only
  rw [h]

/-- Witness for C6 at the spec's concrete values: `1700000000` scales to
`1700000000000`; `1700000000000` is kept unchanged. -/
theorem creationDate_scaling_witness :
    (tryParseSessionMetaJson (some (Json.obj [("creationDate", Json.num 1700000000)]))).2.2
      = some 1700000000000
    ∧ (tryParseSessionMetaJson
        (some (Json.obj [("creationDate", Json.num 1700000000000)]))).2.2
      = some 1700000000000 := by
  constructor
  · rw [creationDate_scaling [("creationDate", Json.num 1700000000)] 1700000000 rfl]
    norm_num
  · rw [creationDate_scaling [("creationDate", Json.num 1700000000000)] 1700000000000 rfl]
    norm_num

/-- An item produced by the loop body for a file of a scanned hash appears
in the final inventory (the sort is a permutation). -/
theorem mem_sessionInventory {lookupDir : String → Option (List ChatFile)}
    {hashes : List String} {files : List ChatFile} {h : String} {f : ChatFile}
    {it : SessionItem}
    (hh : h ∈ hashes) (hl : lookupDir h = some files) (hf : f ∈ files)
    (hitem : inventoryItem h f = some it) :
    it ∈ sessionInventory lookupDir hashes := by
  unfold sessionInventory
  apply ((List.perm_insertionSort itemGe _).mem_iff).mpr
  apply List.mem_flatMap.mpr
  refine ⟨h, hh, ?_⟩
  rw [hl]
  exact List.mem_filterMap.mpr ⟨f, hf, hitem⟩

/-- C10: a structured session file whose `creationDate` parses to the
numeric value 0 keeps the filesystem-derived created timestamp — the
override `if creation_ms:` treats 0 as falsy — and the resulting item
(which lands in the inventory of any scan covering its hash) carries the
stat-derived created/updated times. -/
theorem inventory_zero_creation_no_override
    (h : String) (f : ChatFile) (kvs : List (String × Json))
    (hfile : f.isFile = true)
    (hext : String.mk ((strLower (pathSuffix f.name)).data.dropWhile (· = '.')) = "json")
    (hparse : f.parsed = some (Json.obj kvs))
    (hcd : assocGet kvs "creationDate" = some (Json.num 0)) :
    ∃ it, inventoryItem h f = some it ∧ it.created = f.fsCreated ∧ it.updated = f.fsUpdated
      ∧ ∀ (lookupDir : String → Option (List ChatFile)) (hashes : List String)
          (files : List ChatFile), h ∈ hashes → lookupDir h = some files → f ∈ files →
          it ∈ sessionInventory lookupDir hashes := by
  have hms : (tryParseSessionMetaJson f.parsed).2.2 = some 0 := by
    rw [hparse]
    unfold tryParseSessionMetaJson
    dsimp only
    rw [hcd]
    norm_num
  have hitem : inventoryItem h f = some
      ⟨h,
        (match (tryParseSessionMetaJson f.parsed).1 with
          | some s => if s = "" then pathStem f.name else s
          | none => pathStem f.name),
        (if (tryParseSessionMetaJson f.parsed).2.1 = "" then ""
          else (tryParseSessionMetaJson f.parsed).2.1),
        f.fsCreated, f.fsUpdated, "json", f.name⟩ := by
    unfold inventoryItem
    rw [hfile]
    simp only [Bool.not_true, Bool.false_eq_true, if_false, hext]
    rw [hms]
    norm_num
  refine ⟨_, hitem, rfl, rfl, ?_⟩
  intro lookupDir hashes files hh hl hf
  exact mem_sessionInventory hh hl hf hitem

/-- Witness for C10 at a concrete file `s.json` with stat times 5/9 and
`creationDate` 0: the inventory item keeps created 5 and updated 9. -/
theorem inventory_zero_creation_no_override_witness :
    ∃ it, inventoryItem "A"
        ⟨"s.json", true, 5, 9, some (Json.obj [("creationDate", Json.num 0)])⟩ = some it
      ∧ it.created = 5 ∧ it.updated = 9 := by
  obtain ⟨it, h1, h2, h3, _⟩ := inventory_zero_creation_no_override "A"
    ⟨"s.json", true, 5, 9, some (Json.obj [("creationDate", Json.num 0)])⟩
    [("creationDate", Json.num 0)] rfl (by decide) rfl rfl
  exact ⟨it, h1, h2, h3⟩
